import Mathlib

/-!
# Heimdall: the Redis cache backend and upstream URL creation

A shallow embedding of

* `internal/cache/redis/cache.go`: `NewCache`, `cacheFactory.Create`,
  `Cache.Get`, `Cache.Set`, `Cache.Delete`;
* `internal/rules/config/backend.go`: `Backend.CreateURL`.

Go functions become Lean functions with explicit state passing.  The Redis
client (`rueidis.Client`) is an interface value in the source; here it is a
record of two transition functions (`Do`, `DoCache`) over a state type `σ`.
Log output and calls into collaborators are returned as explicit lists.
-/

namespace Heimdall

/-! ## Errors -/

/-- Sentinel error values named in `cache.go`: `heimdall.ErrConfiguration`,
`heimdall.ErrInternal` and the package-level `ErrConnectionCheckFailed`
(line 35). -/
inductive Sentinel where
  | ErrConfiguration
  | ErrInternal
  | ErrConnectionCheckFailed
  deriving DecidableEq, Repr

/-- Modelled from the spec: the `errorchain` package is not among the sources.
"Construction-time errors are chained with context (what failed and why)":
`chain kind msg cause` stands for
`errorchain.NewWithMessage(kind, msg).CausedBy(cause)`, and `ext msg` is an
error value that comes from outside the chain (a library error, identified by
its text). -/
inductive Err where
  | ext (msg : String)
  | chain (kind : Sentinel) (msg : String) (cause : Err)
  deriving DecidableEq, Repr

/-- The kind of an error: the sentinel at the head of the chain. -/
def Err.kind : Err → Option Sentinel
  | .ext _ => none
  | .chain k _ _ => some k

/-- The cause recorded directly under the head of the chain. -/
def Err.cause : Err → Option Err
  | .ext _ => none
  | .chain _ _ c => some c

/-- Go `errors.Is` against a sentinel, followed along the whole chain: the
sentinel is the head or occurs in a cause. -/
def Err.Is : Err → Sentinel → Bool
  | .ext _, _ => false
  | .chain k _ c, s => k == s || c.Is s

/-! ## The Redis client interface (`rueidis`) -/

/-- Go `time.Duration`: a signed count of nanoseconds. -/
abbrev Duration := Int

/-- Go `time.Millisecond`. -/
def Millisecond : Duration := 1000000

/-- Go `time.Second`. -/
def Second : Duration := 1000 * Millisecond

/-- Go `time.Minute`. -/
def Minute : Duration := 60 * Second

/-- Go `Duration.Milliseconds()`: integer division truncating toward zero. -/
def Milliseconds (d : Duration) : Int := Int.tdiv d 1000000

/-- The commands `cache.go` builds with `Build()`: `PING` (line 95),
`SET key value PX ttl` (line 128) and `UNLINK key` (line 135). -/
inductive Completed where
  | ping
  | set (key : String) (value : String) (px : Duration)
  | unlink (key : String)
  deriving DecidableEq, Repr

/-- The command `cache.go` builds with `Cache()`: `GET key` (line 115). -/
structure Cacheable where
  key : String
  deriving DecidableEq, Repr

/-- A reply of the store, as far as `cache.go` looks at it. -/
inductive RedisMessage where
  | null
  | str (s : String)
  | int (n : Int)
  | err (msg : String)
  deriving DecidableEq, Repr

/-- A `rueidis.RedisResult`: either a client-side error (network, context) or
a reply of the store. -/
structure RedisResult where
  err : Option Err
  val : RedisMessage
  deriving DecidableEq, Repr

/-- The error value the client reports for a nil reply. -/
def Nil : Err := .ext "redis nil message"

/-- The error carried by a reply: nil replies and error replies are errors. -/
def RedisMessage.Error : RedisMessage → Option Err
  | .null => some Nil
  | .err msg => some (.ext msg)
  | .str _ => none
  | .int _ => none

/-- Go `RedisResult.Error()`. -/
def RedisResult.Error (r : RedisResult) : Option Err :=
  match r.err with
  | some e => some e
  | none => r.val.Error

/-- Conversion of a reply to a string: only string replies convert. -/
def RedisMessage.ToString : RedisMessage → Except Err String
  | .str s => .ok s
  | .null => .error Nil
  | .err msg => .error (.ext msg)
  | .int _ => .error (.ext "redis message type int64 is not a string")

/-- Go `RedisResult.ToString()`. -/
def RedisResult.ToString (r : RedisResult) : Except Err String :=
  match r.err with
  | some e => .error e
  | none => r.val.ToString

/-- The two methods of `rueidis.Client` that `cache.go` calls, as transition
functions over the state `σ` of the client and the store behind it. -/
structure Client (σ : Type) where
  Do : σ → Completed → RedisResult × σ
  DoCache : σ → Cacheable → Duration → RedisResult × σ

/-- The `Cache` struct of `cache.go` (lines 48–50). -/
structure Cache (σ : Type) where
  c : Client σ

/-! ## Configuration -/

/-- The part of `config.KeyStore` that `cache.go` reads. -/
structure KeyStore where
  Path : String
  deriving DecidableEq, Repr

/-- The part of `config.TLS` that `cache.go` reads (`cfg.TLS.KeyStore.Path`). -/
structure TLS where
  KeyStore : KeyStore
  deriving DecidableEq, Repr

/-- The local `Config` struct of `NewCache` (lines 53–61). -/
structure Config where
  Addrs : List String
  Username : String
  Password : String
  DB : Int
  TLS : Option TLS
  AdditionalCa : String
  DisableCache : Bool
  deriving DecidableEq, Repr

/-- A handle for the `*tls.Config` built by `configureTLS`. -/
structure TLSConfig where
  descr : String
  deriving DecidableEq, Repr

/-- The fields of `rueidis.ClientOption` that `NewCache` sets (lines 69–77, 86). -/
structure ClientOption where
  ClientName : String
  InitAddress : List String
  ShuffleInit : Bool
  Username : String
  Password : String
  DisableCache : Bool
  SelectDB : Int
  TLSConfig : Option TLSConfig
  deriving DecidableEq, Repr

/-- A value of Go type `any` inside the untyped configuration map. -/
inductive Value where
  | null
  | str (s : String)
  | int (n : Int)
  | bool (b : Bool)
  | list (xs : List Value)
  | map (kvs : List (String × Value))

/-- Go `map[string]any`, as an association list. -/
abbrev ConfMap := List (String × Value)

/-- A list of configuration values read as a list of strings. -/
def asStrings : List Value → Option (List String)
  | [] => some []
  | .str s :: rest =>
    match asStrings rest with
    | some ss => some (s :: ss)
    | none => none
  | _ :: _ => none

/-- Decoding of the `addrs` setting: a missing or null setting is the empty list. -/
def decodeAddrs : Option Value → Option (List String)
  | none => some []
  | some .null => some []
  | some (.list xs) => asStrings xs
  | some _ => none

/-- Decoding of a string setting: a missing or null setting is the empty string. -/
def decodeString : Option Value → Option String
  | none => some ""
  | some .null => some ""
  | some (.str s) => some s
  | some _ => none

/-- Decoding of an integer setting: a missing or null setting is zero. -/
def decodeInt : Option Value → Option Int
  | none => some 0
  | some .null => some 0
  | some (.int n) => some n
  | some _ => none

/-- Decoding of a boolean setting: a missing or null setting is false. -/
def decodeBool : Option Value → Option Bool
  | none => some false
  | some .null => some false
  | some (.bool b) => some b
  | some _ => none

/-- Decoding of the `tls` setting: a missing or null setting is a nil pointer. -/
def decodeTLS : Option Value → Option (Option TLS)
  | none => some none
  | some .null => some none
  | some (.map kvs) =>
    match kvs.lookup "key_store" with
    | none => some (some { KeyStore := { Path := "" } })
    | some .null => some (some { KeyStore := { Path := "" } })
    | some (.map ks) =>
      match decodeString (ks.lookup "path") with
      | some p => some (some { KeyStore := { Path := p } })
      | none => none
    | some _ => none
  | some _ => none

/-- The field-by-field decoding of the configuration map, by the `mapstructure`
names of lines 54–60. -/
def decodeFields (conf : ConfMap) : Option Config :=
  match decodeAddrs (conf.lookup "addrs"), decodeString (conf.lookup "username"),
    decodeString (conf.lookup "password"), decodeInt (conf.lookup "db"),
    decodeTLS (conf.lookup "tls"), decodeString (conf.lookup "additional_ca"),
    decodeBool (conf.lookup "disable_cache") with
  | some addrs, some user, some pass, some db, some tls, some ca, some dis =>
    some { Addrs := addrs, Username := user, Password := pass, DB := db, TLS := tls,
           AdditionalCa := ca, DisableCache := dis }
  | _, _, _, _, _, _, _ => none

/-- The validation rule `gt=0,dive,required` on `Addrs` (line 54): at least one
address, and no address is the empty string. -/
def validAddrs (addrs : List String) : Bool :=
  decide (0 < addrs.length) && addrs.all (fun a => a != "")

/-- Modelled from the spec: `decodeConfig` is called at line 65 but is not among
the sources.  "Decode and validate the untyped configuration map into a typed
configuration (addresses required, at least one; credentials, database
selector, and optional TLS settings optional)"; a failure is a configuration
error ("malformed or missing required settings"). -/
def decodeConfig (conf : ConfMap) : Except Err Config :=
  match decodeFields conf with
  | none =>
    .error (.chain .ErrConfiguration "failed decoding redis cache config"
      (.ext "malformed setting"))
  | some cfg =>
    if validAddrs cfg.Addrs then .ok cfg
    else
      .error (.chain .ErrConfiguration "failed validating redis cache config"
        (.ext "addrs: at least one non-empty address is required"))

/-! ## Construction: `NewCache` -/

/-- The collaborators `NewCache` calls besides the client itself:
`configureTLS` (line 80, not among the sources) and `rueidisotel.NewClient`
(line 89, a library function). -/
structure Env (σ : Type) where
  configureTLS : TLS → String → Except Err TLSConfig
  NewClient : ClientOption → Except Err (Client σ)

/-- What `NewCache` does to the outside, in order of occurrence. -/
inductive Event where
  | configureTLS (tls : TLS) (additionalCa : String)
  | newClient (opts : ClientOption)
  | command (cmd : Completed)
  deriving DecidableEq, Repr

/-- Lines 69–77 of `NewCache`: the client options taken from the configuration. -/
def clientOptions (cfg : Config) : ClientOption :=
  { ClientName := "heimdall"
    InitAddress := cfg.Addrs
    ShuffleInit := true
    Username := cfg.Username
    Password := cfg.Password
    DisableCache := cfg.DisableCache
    SelectDB := cfg.DB
    TLSConfig := none }

/-- Lines 79–87 of `NewCache`: the TLS step.  The guard of line 79 is
`cfg.TLS != nil && len(cfg.TLS.KeyStore.Path) != 0`. -/
def withTLS {σ : Type} (env : Env σ) (cfg : Config) (opts : ClientOption) :
    Except Err ClientOption × List Event :=
  match cfg.TLS with
  | some tls =>
    if tls.KeyStore.Path.length != 0 then
      match env.configureTLS tls cfg.AdditionalCa with
      | .error err =>
        (.error (.chain .ErrConfiguration "failed configuring tls for redis cache" err),
          [.configureTLS tls cfg.AdditionalCa])
      | .ok tlsConfig =>
        (.ok { opts with TLSConfig := some tlsConfig }, [.configureTLS tls cfg.AdditionalCa])
    else (.ok opts, [])
  | none => (.ok opts, [])

/-- Lines 89–100 of `NewCache`: client creation and the `PING` probe. -/
def connect {σ : Type} (env : Env σ) (opts : ClientOption) (st : σ) :
    Except Err (Cache σ) × σ × List Event :=
  match env.NewClient opts with
  | .error err =>
    (.error (.chain .ErrInternal "failed creating redis cache client" err), st,
      [.newClient opts])
  | .ok client =>
    let r := client.Do st .ping
    match r.1.Error with
    | some err =>
      (.error (.chain .ErrConnectionCheckFailed "failed connect to redis cache" err), r.2,
        [.newClient opts, .command .ping])
    | none => (.ok { c := client }, r.2, [.newClient opts, .command .ping])

/-- The constructor `NewCache` (lines 52–101).  The result is the returned
pair `(*Cache, error)` as an `Except`, the state after the call, and the
calls made to the outside. -/
def NewCache {σ : Type} (env : Env σ) (conf : ConfMap) (st : σ) :
    Except Err (Cache σ) × σ × List Event :=
  match decodeConfig conf with
  | .error err => (.error err, st, [])
  | .ok cfg =>
    match withTLS env cfg (clientOptions cfg) with
    | (.error err, evs) => (.error err, st, evs)
    | (.ok opts, evs) =>
      let r := connect env opts st
      (r.1, r.2.1, evs ++ r.2.2)

/-- The factory method `cacheFactory.Create` (lines 44–46). -/
def Create {σ : Type} (env : Env σ) (conf : ConfMap) (st : σ) :
    Except Err (Cache σ) × σ × List Event :=
  NewCache env conf st

/-- The error of a construction result, if it is one. -/
def errorOf {α : Type} : Except Err α → Option Err
  | .error e => some e
  | .ok _ => none

/-! ## Runtime operations: `Get`, `Set`, `Delete` -/

/-- The values of Go type `any` that are told apart here: the absent indicator
`nil`, strings, two kinds of non-string scalars, and error values (given by
their `Error()` text). -/
inductive AnyVal where
  | nil
  | str (s : String)
  | int (n : Int)
  | bool (b : Bool)
  | error (msg : String)
  deriving DecidableEq, Repr

/-- Go `fmt.Sprintf("%s", value)` (line 126): strings print as themselves,
error values print their text, and values that do not support the verb print
in the form `%!s(type=value)`. -/
def Sprintf_s : AnyVal → String
  | .nil => "%!s(<nil>)"
  | .str s => s
  | .int n => "%!s(int=" ++ toString n ++ ")"
  | .bool b => "%!s(bool=" ++ toString b ++ ")"
  | .error msg => msg

/-- Log levels of `zerolog`. -/
inductive Level where
  | debug
  | info
  | warn
  | error
  deriving DecidableEq, Repr

/-- A record handed to the logger of the context: its level, the error
attached with `Err(err)`, the message given to `Msg`, and the further context
fields the call site adds. -/
structure LogRecord where
  level : Level
  err : Option Err
  msg : String
  fields : List (String × String)
  deriving DecidableEq, Repr

/-- The method `Cache.Get` (lines 114–123): the returned value, the state after
the call and the log records emitted. -/
def Cache.Get {σ : Type} (c : Cache σ) (st : σ) (key : String) :
    AnyVal × σ × List LogRecord :=
  let r := c.c.DoCache st { key := key } Minute
  match r.1.ToString with
  | .error err =>
    (.nil, r.2,
      [{ level := .warn, err := some err, msg := "Failed to fetch value from cache",
         fields := [] }])
  | .ok val => (.str val, r.2, [])

/-- The method `Cache.Set` (lines 125–131): the state after the call and the
log records emitted. -/
def Cache.Set {σ : Type} (c : Cache σ) (st : σ) (key : String) (value : AnyVal)
    (ttl : Duration) : σ × List LogRecord :=
  let str := Sprintf_s value
  let r := c.c.Do st (.set key str ttl)
  match r.1.Error with
  | some err =>
    (r.2,
      [{ level := .warn, err := some err, msg := "Failed to store value in cache",
         fields := [] }])
  | none => (r.2, [])

/-- The method `Cache.Delete` (lines 133–138): the state after the call and the
log records emitted. -/
def Cache.Delete {σ : Type} (c : Cache σ) (st : σ) (key : String) :
    σ × List LogRecord :=
  let r := c.c.Do st (.unlink key)
  match r.1.Error with
  | some err =>
    (r.2,
      [{ level := .warn, err := some err, msg := "Failed to unlink value from cache",
         fields := [] }])
  | none => (r.2, [])

/-- A log record includes a key when one of its context fields carries it or
its message contains it. -/
def LogRecord.includesKey (r : LogRecord) (key : String) : Bool :=
  r.fields.any (fun f => f.2 == key) || decide (key.data <:+: r.msg.data)

/-! ## A client that records the calls it receives -/

/-- A call received by a client. -/
inductive Call where
  | doCmd (cmd : Completed)
  | doCache (cmd : Cacheable) (ttl : Duration)
  deriving DecidableEq, Repr

/-- A client that answers every call with a nil reply and appends the call to
its state. -/
def recorder : Client (List Call) :=
  { Do := fun st cmd => ({ err := none, val := .null }, st ++ [.doCmd cmd])
    DoCache := fun st cmd ttl => ({ err := none, val := .null }, st ++ [.doCache cmd ttl]) }

/-! ## The model store -/

/-- An entry of the store or of the local read cache: a string value and the
absolute time (in milliseconds) at which it expires. -/
structure Entry where
  value : String
  expireAt : Int
  deriving DecidableEq, Repr

/-- Modelled from the spec: the remote store and the client library with its
local read cache are external collaborators.  The store "owns expiry; once the
TTL elapses the entry is no longer retrievable".  The local read cache holds
"a local, short-lived copy of a value fetched from the remote store",
"invalidated either by its own short expiry or by a server-originated
invalidation signal"; the signal is pushed by the store and is in flight
(`pending`) until the client processes it.  Removal is "a non-blocking removal
request" and "the store itself defers the actual memory reclamation"
(`reclaim`).  The local layer is "enabled unless explicitly disabled".  A
`fault` makes every round trip to the store fail with that error. -/
structure World where
  now : Int
  store : List (String × Entry)
  localCache : List (String × Entry)
  pending : List String
  reclaim : List String
  disableCache : Bool
  fault : Option Err
  deriving DecidableEq, Repr

/-- The entry under a key that has not expired at time `now`. -/
def live (now : Int) (m : List (String × Entry)) (k : String) : Option Entry :=
  match m.lookup k with
  | some e => if now < e.expireAt then some e else none
  | none => none

/-- Removal of a key from a table. -/
def remove (m : List (String × Entry)) (k : String) : List (String × Entry) :=
  m.filter (fun p => p.1 != k)

/-- Replacement of the entry under a key. -/
def put (m : List (String × Entry)) (k : String) (e : Entry) : List (String × Entry) :=
  (k, e) :: remove m k

/-- The result of a round trip that failed with a client-side error. -/
def failed (e : Err) : RedisResult := { err := some e, val := .null }

/-- The result of a round trip that brought a reply. -/
def reply (m : RedisMessage) : RedisResult := { err := none, val := m }

/-- A plain read of a key from the store. -/
def World.read (w : World) (k : String) : RedisResult × World :=
  match w.fault with
  | some e => (failed e, w)
  | none =>
    match live w.now w.store k with
    | some e => (reply (.str e.value), w)
    | none => (reply .null, w)

/-- The model of `Client.Do`.  `SET key value PX ms` stores the value with an
expiry `ms` milliseconds from now (a non-positive `ms` is rejected by the
store); `UNLINK key` unlinks the key at once and leaves the value to be
reclaimed later.  Both push an invalidation signal for the key. -/
def World.Do (w : World) (cmd : Completed) : RedisResult × World :=
  match w.fault with
  | some e => (failed e, w)
  | none =>
    match cmd with
    | .ping => (reply (.str "PONG"), w)
    | .set k v px =>
      if 0 < Milliseconds px then
        (reply (.str "OK"),
          { w with store := put w.store k { value := v, expireAt := w.now + Milliseconds px }
                   pending := k :: w.pending })
      else (reply (.err "ERR invalid expire time in set command"), w)
    | .unlink k =>
      match live w.now w.store k with
      | some e =>
        (reply (.int 1),
          { w with store := remove w.store k
                   reclaim := e.value :: w.reclaim
                   pending := k :: w.pending })
      | none => (reply (.int 0), { w with store := remove w.store k })

/-- The model of `Client.DoCache` for `GET key`: "first serves from a local
time-bounded copy if the value was read recently and not yet invalidated,
otherwise performs a network round trip to the store and populates the local
copy" with the requested lifetime, which is "always ≤ the stored value's own
TTL": the copy expires at the earlier of now plus the requested lifetime and
the expiry of the store entry. -/
def World.DoCache (w : World) (cmd : Cacheable) (ttl : Duration) : RedisResult × World :=
  if w.disableCache then w.read cmd.key
  else
    match live w.now w.localCache cmd.key with
    | some e => (reply (.str e.value), w)
    | none =>
      match w.fault with
      | some err => (failed err, w)
      | none =>
        match live w.now w.store cmd.key with
        | some e =>
          (reply (.str e.value),
            { w with localCache := put w.localCache cmd.key
                       { value := e.value
                         expireAt := min (w.now + Milliseconds ttl) e.expireAt } })
        | none => (reply .null, w)

/-- The client processes the invalidation signals in flight. -/
def World.deliver (w : World) : World :=
  { w with localCache := w.localCache.filter (fun p => !(w.pending.contains p.1))
           pending := [] }

/-- Time passes: `dt` milliseconds. -/
def World.advance (w : World) (dt : Int) : World :=
  { w with now := w.now + dt }

/-- The store finishes the reclamation of unlinked values. -/
def World.reclaimAll (w : World) : World :=
  { w with reclaim := [] }

/-- The model client. -/
def modelClient : Client World :=
  { Do := World.Do, DoCache := World.DoCache }

/-- A cache instance over the model client. -/
def modelCache : Cache World := { c := modelClient }

/-- A fresh world: empty store, empty local read cache, local caching enabled. -/
def World.fresh : World :=
  { now := 0, store := [], localCache := [], pending := [], reclaim := [],
    disableCache := false, fault := none }

/-! ## Upstream URL creation: `Backend.CreateURL` -/

/-- Go `url.Userinfo`. -/
structure Userinfo where
  username : String
  password : String
  passwordSet : Bool
  deriving DecidableEq, Repr

/-- Go `url.URL`. -/
structure URL where
  Scheme : String
  Opaque : String
  User : Option Userinfo
  Host : String
  Path : String
  RawPath : String
  OmitHost : Bool
  ForceQuery : Bool
  RawQuery : String
  Fragment : String
  RawFragment : String
  deriving DecidableEq, Repr

/-- The `Backend` struct (lines 25–28).  The type of the rewriter is declared
outside the sources and is a parameter `ρ`; a nil pointer is `none`. -/
structure Backend (ρ : Type) where
  Host : String
  URLRewriter : Option ρ

/-- Memory as seen by `CreateURL`: the receiver `*f` and the allocated
`url.URL` objects; a `*url.URL` is a position in `urls`. -/
structure Mem (ρ : Type) where
  backend : Backend ρ
  urls : List URL

/-- The method `Backend.CreateURL` (lines 30–43).  `Rewrite` is the method
`URLRewriter.Rewrite` (declared outside the sources), which rewrites the object
it is given in place.  The result is the pointer returned and the memory after
the call; dereferencing a pointer that is not allocated gives `none`. -/
def CreateURL {ρ : Type} (Rewrite : ρ → URL → URL) (m : Mem ρ) (value : Nat) :
    Option (Nat × Mem ρ) :=
  match m.urls.get? value with
  | none => none
  | some v =>
    let upstreamURL : URL :=
      { Scheme := v.Scheme
        Opaque := ""
        User := none
        Host := m.backend.Host
        Path := v.Path
        RawPath := ""
        OmitHost := false
        ForceQuery := false
        RawQuery := v.RawQuery
        Fragment := ""
        RawFragment := "" }
    match m.backend.URLRewriter with
    | some rw => some (m.urls.length, { m with urls := m.urls ++ [Rewrite rw upstreamURL] })
    | none => some (m.urls.length, { m with urls := m.urls ++ [upstreamURL] })

/-! ## Concrete inputs -/

/-- A configuration map with one address and nothing else. -/
def confPlain : ConfMap := [("addrs", .list [.str "127.0.0.1:6379"])]

/-- The typed configuration that `confPlain` decodes to. -/
def cfgPlain : Config :=
  { Addrs := ["127.0.0.1:6379"], Username := "", Password := "", DB := 0, TLS := none,
    AdditionalCa := "", DisableCache := false }

/-- A configuration map with a key store and an additional trust anchor. -/
def confTLS : ConfMap :=
  [("addrs", .list [.str "redis:6379"]),
   ("tls", .map [("key_store", .map [("path", .str "/certs/ks.pem")])]),
   ("additional_ca", .str "/certs/ca.pem")]

/-- The TLS section of `confTLS`. -/
def tlsKS : TLS := { KeyStore := { Path := "/certs/ks.pem" } }

/-- The typed configuration that `confTLS` decodes to. -/
def cfgTLS : Config :=
  { Addrs := ["redis:6379"], Username := "", Password := "", DB := 0, TLS := some tlsKS,
    AdditionalCa := "/certs/ca.pem", DisableCache := false }

/-- A configuration map like `confPlain` with an additional trust anchor. -/
def confPlainCa : ConfMap :=
  [("addrs", .list [.str "127.0.0.1:6379"]), ("additional_ca", .str "/certs/ca.pem")]

/-- A configuration map whose address list holds an empty string. -/
def confEmptyAddr : ConfMap := [("addrs", .list [.str "redis:6379", .str ""])]

/-- An environment in which TLS setup and client creation succeed; the client
is the model client. -/
def envOk : Env World :=
  { configureTLS := fun tls ca => .ok { descr := tls.KeyStore.Path ++ ";" ++ ca }
    NewClient := fun _ => .ok modelClient }

/-- An environment in which client creation fails: nothing listens at the
address. -/
def envRefused : Env World :=
  { configureTLS := fun tls ca => .ok { descr := tls.KeyStore.Path ++ ";" ++ ca }
    NewClient := fun _ =>
      .error (.ext "dial tcp 127.0.0.1:6379: connect: connection refused") }

/-- An environment in which the key store cannot be loaded. -/
def envBadTLS : Env World :=
  { configureTLS := fun _ _ => .error (.ext "open /certs/ks.pem: no such file or directory")
    NewClient := fun _ => .ok modelClient }

/-- A world in which every round trip to the store fails. -/
def worldDown : World :=
  { World.fresh with fault := some (.ext "dial tcp 127.0.0.1:6379: i/o timeout") }

/-- Go `time.Hour`. -/
def Hour : Duration := 60 * Minute

/-- A cache instance over the recording client. -/
def recCache : Cache (List Call) := { c := recorder }

/-- The world after `Set("k", "v", time.Hour)` on a fresh world. -/
def worldSet : World := (modelCache.Set World.fresh "k" (.str "v") Hour).1

/-- The world after a following `Get("k")`, which leaves a local copy of the
value. -/
def worldRead : World := (modelCache.Get worldSet "k").2.1

/-- What may happen between two calls of interest: a `Get` of some key, the
passing of time, the processing of invalidation signals by the client, and
the completion of reclamation in the store. -/
inductive Op where
  | get (key : String)
  | advance (dt : Nat)
  | deliver
  | reclaim
  deriving DecidableEq, Repr

/-- The world after one such step. -/
def Op.run (w : World) : Op → World
  | .get key => (modelCache.Get w key).2.1
  | .advance dt => w.advance dt
  | .deliver => w.deliver
  | .reclaim => w.reclaimAll

/-- The world after a sequence of such steps. -/
def runOps (w : World) (ops : List Op) : World :=
  ops.foldl Op.run w

/-- An allocated URL with every component set. -/
def urlFull : URL :=
  { Scheme := "https"
    Opaque := ""
    User := some ⟨"u", "p", true⟩
    Host := "gateway.local"
    Path := "/api/v1"
    RawPath := ""
    OmitHost := false
    ForceQuery := false
    RawQuery := "a=b"
    Fragment := "top"
    RawFragment := "" }

/-- A memory with a backend without rewriter and one allocated URL. -/
def memPlain : Mem Unit :=
  { backend := { Host := "upstream:8080", URLRewriter := none }, urls := [urlFull] }

/-! ## Lemmas on decoding -/

theorem asStrings_mem_empty (xs : List Value) (ss : List String)
    (h : asStrings xs = some ss) (hmem : Value.str "" ∈ xs) : "" ∈ ss := by
  induction xs generalizing ss with
  | nil => cases hmem
  | cons x rest ih =>
    cases x with
    | str s =>
      simp only [asStrings] at h
      cases hr : asStrings rest with
      | none => rw [hr] at h; cases h
      | some ss0 =>
        rw [hr] at h
        cases h
        rcases List.mem_cons.mp hmem with heq | hin
        · cases heq
          exact List.mem_cons_self _ _
        · exact List.mem_cons_of_mem _ (ih ss0 hr hin)
    | null => simp [asStrings] at h
    | int n => simp [asStrings] at h
    | bool b => simp [asStrings] at h
    | list ys => simp [asStrings] at h
    | map kvs => simp [asStrings] at h

theorem validAddrs_nil : validAddrs [] = false := by
  simp [validAddrs]

theorem validAddrs_of_mem_empty (ss : List String) (h : "" ∈ ss) : validAddrs ss = false := by
  simp only [validAddrs, Bool.and_eq_false_iff]
  right
  rw [List.all_eq_false]
  exact ⟨"", h, by simp⟩

theorem decodeFields_addrs (conf : ConfMap) (cfg : Config) (h : decodeFields conf = some cfg) :
    decodeAddrs (conf.lookup "addrs") = some cfg.Addrs := by
  unfold decodeFields at h
  split at h
  · rename_i h1 _ _ _ _ _ _
    cases h
    exact h1
  · cases h

theorem decodeConfig_error_kind (conf : ConfMap) (e : Err) (h : decodeConfig conf = .error e) :
    e.kind = some .ErrConfiguration := by
  unfold decodeConfig at h
  split at h
  · cases h; rfl
  · split at h
    · cases h
    · cases h; rfl

theorem decodeConfig_invalid (conf : ConfMap)
    (h : ∀ cfg, decodeFields conf = some cfg → validAddrs cfg.Addrs = false) :
    ∃ e, decodeConfig conf = .error e := by
  unfold decodeConfig
  cases hf : decodeFields conf with
  | none => exact ⟨_, rfl⟩
  | some cfg =>
    simp only [h cfg hf]
    exact ⟨_, rfl⟩

theorem String_length_eq_zero (s : String) : s.length = 0 ↔ s = "" := by
  constructor
  · intro h
    cases s with
    | mk d =>
      simp [String.length] at h
      simp [h]
  · rintro rfl; rfl

/-! ## Lemmas on `NewCache` -/

theorem NewCache_of_decode_error {σ : Type} (env : Env σ) (conf : ConfMap) (st : σ) (e : Err)
    (h : decodeConfig conf = .error e) : NewCache env conf st = (.error e, st, []) := by
  simp [NewCache, h]

theorem NewCache_of_tls_ok {σ : Type} (env : Env σ) (conf : ConfMap) (st : σ) (cfg : Config)
    (opts : ClientOption) (hdec : decodeConfig conf = .ok cfg)
    (htls : (withTLS env cfg (clientOptions cfg)).1 = .ok opts) :
    NewCache env conf st =
      ((connect env opts st).1, (connect env opts st).2.1,
        (withTLS env cfg (clientOptions cfg)).2 ++ (connect env opts st).2.2) := by
  unfold NewCache
  rw [hdec]
  rcases hw : withTLS env cfg (clientOptions cfg) with ⟨r, evs⟩
  rw [hw] at htls
  simp only at htls
  subst htls
  simp only [hw]

theorem connect_of_client_error {σ : Type} (env : Env σ) (opts : ClientOption) (st : σ)
    (e : Err) (h : env.NewClient opts = .error e) :
    connect env opts st =
      (.error (.chain .ErrInternal "failed creating redis cache client" e), st,
        [.newClient opts]) := by
  simp [connect, h]

theorem connect_of_ping_error {σ : Type} (env : Env σ) (opts : ClientOption) (st : σ)
    (client : Client σ) (e : Err) (h : env.NewClient opts = .ok client)
    (hping : (client.Do st .ping).1.Error = some e) :
    connect env opts st =
      (.error (.chain .ErrConnectionCheckFailed "failed connect to redis cache" e),
        (client.Do st .ping).2, [.newClient opts, .command .ping]) := by
  simp [connect, h, hping]

theorem withTLS_of_guard_false {σ : Type} (env : Env σ) (cfg : Config) (opts : ClientOption)
    (h : cfg.TLS = none ∨ ∃ tls, cfg.TLS = some tls ∧ tls.KeyStore.Path = "") :
    withTLS env cfg opts = (.ok opts, []) := by
  unfold withTLS
  rcases h with h | ⟨tls, h, hp⟩
  · rw [h]
  · rw [h]
    simp [hp]

theorem withTLS_of_guard_true {σ : Type} (env : Env σ) (cfg : Config) (opts : ClientOption)
    (tls : TLS) (h : cfg.TLS = some tls) (hp : tls.KeyStore.Path ≠ "") :
    withTLS env cfg opts =
      match env.configureTLS tls cfg.AdditionalCa with
      | .error err =>
        (.error (.chain .ErrConfiguration "failed configuring tls for redis cache" err),
          [.configureTLS tls cfg.AdditionalCa])
      | .ok tlsConfig =>
        (.ok { opts with TLSConfig := some tlsConfig }, [.configureTLS tls cfg.AdditionalCa]) := by
  unfold withTLS
  rw [h]
  have hl : tls.KeyStore.Path.length ≠ 0 := fun h0 => hp ((String_length_eq_zero _).mp h0)
  simp [hl]

theorem connect_events_no_tls {σ : Type} (env : Env σ) (opts : ClientOption) (st : σ)
    (tls : TLS) (ca : String) : Event.configureTLS tls ca ∉ (connect env opts st).2.2 := by
  unfold connect
  split
  · simp
  · dsimp only
    split <;> simp

theorem connect_events_client {σ : Type} (env : Env σ) (opts : ClientOption) (st : σ)
    (o : ClientOption) : Event.newClient o ∈ (connect env opts st).2.2 ↔ o = opts := by
  unfold connect
  split
  · simp
  · dsimp only
    split <;> simp

theorem NewCache_of_tls_error {σ : Type} (env : Env σ) (conf : ConfMap) (st : σ)
    (cfg : Config) (err : Err) (evs : List Event) (hdec : decodeConfig conf = .ok cfg)
    (htls : withTLS env cfg (clientOptions cfg) = (.error err, evs)) :
    NewCache env conf st = (.error err, st, evs) := by
  unfold NewCache
  rw [hdec]
  simp only [htls]

theorem NewCache_of_guard_false {σ : Type} (env : Env σ) (conf : ConfMap) (st : σ)
    (cfg : Config) (hdec : decodeConfig conf = .ok cfg)
    (h : cfg.TLS = none ∨ ∃ tls, cfg.TLS = some tls ∧ tls.KeyStore.Path = "") :
    NewCache env conf st =
      ((connect env (clientOptions cfg) st).1, (connect env (clientOptions cfg) st).2.1,
        (connect env (clientOptions cfg) st).2.2) := by
  have hw := withTLS_of_guard_false env cfg (clientOptions cfg) h
  rw [NewCache_of_tls_ok env conf st cfg (clientOptions cfg) hdec (by rw [hw]), hw]
  simp

/-! ## Construction -/

/-- C1: for a configuration map that decodes and validates, with TLS setup
(when requested) and client creation succeeding, a `PING` that fails with `e`
makes `NewCache` return no instance and an error of kind
`ErrConnectionCheckFailed` whose cause is `e`; the error is not of kind
`ErrConfiguration`. -/
theorem NewCache_ping_failure {σ : Type} (env : Env σ) (conf : ConfMap) (st : σ)
    (cfg : Config) (opts : ClientOption) (client : Client σ) (e : Err)
    (hdec : decodeConfig conf = .ok cfg)
    (htls : (withTLS env cfg (clientOptions cfg)).1 = .ok opts)
    (hcl : env.NewClient opts = .ok client)
    (hping : (client.Do st .ping).1.Error = some e) :
    ∃ err, (NewCache env conf st).1 = .error err ∧
      err = .chain .ErrConnectionCheckFailed "failed connect to redis cache" e ∧
      err.kind = some .ErrConnectionCheckFailed ∧ err.cause = some e ∧
      err.kind ≠ some .ErrConfiguration ∧
      (e.Is .ErrConfiguration = false → err.Is .ErrConfiguration = false) := by
  refine ⟨_, ?_, rfl, rfl, rfl, by simp [Err.kind], ?_⟩
  · rw [NewCache_of_tls_ok env conf st cfg opts hdec htls,
      connect_of_ping_error env opts st client e hcl hping]
  · intro he
    simp [Err.Is, he]

/-- Witness for C1: the plain configuration against a store that is down. -/
theorem NewCache_ping_failure_witness :
    ∃ err, (NewCache envOk confPlain worldDown).1 = .error err ∧
      err = .chain .ErrConnectionCheckFailed "failed connect to redis cache"
        (.ext "dial tcp 127.0.0.1:6379: i/o timeout") ∧
      err.kind = some .ErrConnectionCheckFailed ∧
      err.cause = some (.ext "dial tcp 127.0.0.1:6379: i/o timeout") ∧
      err.kind ≠ some .ErrConfiguration ∧
      (Err.Is (.ext "dial tcp 127.0.0.1:6379: i/o timeout") .ErrConfiguration = false →
        err.Is .ErrConfiguration = false) :=
  NewCache_ping_failure envOk confPlain worldDown cfgPlain (clientOptions cfgPlain)
    modelClient (.ext "dial tcp 127.0.0.1:6379: i/o timeout") rfl rfl rfl rfl

/-- C2, as stated, fails: with a valid configuration and nothing listening, a
failure that surfaces while the client is being created makes `Create`
return an error of kind `ErrInternal`, not `ErrConnectionCheckFailed`. -/
theorem Create_client_creation_failure_kind :
    decodeConfig confPlain = .ok cfgPlain ∧
    errorOf (Create envRefused confPlain World.fresh).1 =
      some (.chain .ErrInternal "failed creating redis cache client"
        (.ext "dial tcp 127.0.0.1:6379: connect: connection refused")) ∧
    (errorOf (Create envRefused confPlain World.fresh).1).bind Err.kind ≠
      some .ErrConnectionCheckFailed := by
  refine ⟨rfl, rfl, ?_⟩
  decide

/-- C2, amended: for a valid configuration with TLS setup succeeding, an
unreachable store makes `NewCache`, and so `Create`, fail with an error of kind
`ErrConnectionCheckFailed` when the failure surfaces in the `PING` probe, and
with an error of kind `ErrInternal` when it surfaces while the client is being
created (no command is sent then); neither error is of kind
`ErrConfiguration`. -/
theorem Create_unreachable {σ : Type} (env : Env σ) (conf : ConfMap) (st : σ)
    (cfg : Config) (opts : ClientOption) (e : Err)
    (hdec : decodeConfig conf = .ok cfg)
    (htls : (withTLS env cfg (clientOptions cfg)).1 = .ok opts) :
    Create env conf st = NewCache env conf st ∧
    (env.NewClient opts = .error e →
      ∃ err, (Create env conf st).1 = .error err ∧
        err = .chain .ErrInternal "failed creating redis cache client" e ∧
        err.kind = some .ErrInternal ∧ err.kind ≠ some .ErrConfiguration ∧
        (∀ cmd, Event.command cmd ∉ (Create env conf st).2.2)) ∧
    (∀ client, env.NewClient opts = .ok client → (client.Do st .ping).1.Error = some e →
      ∃ err, (Create env conf st).1 = .error err ∧
        err = .chain .ErrConnectionCheckFailed "failed connect to redis cache" e ∧
        err.kind = some .ErrConnectionCheckFailed ∧ err.kind ≠ some .ErrConfiguration) := by
  refine ⟨rfl, ?_, ?_⟩
  · intro hcl
    refine ⟨_, ?_, rfl, rfl, by simp [Err.kind], ?_⟩
    · unfold Create
      rw [NewCache_of_tls_ok env conf st cfg opts hdec htls,
        connect_of_client_error env opts st e hcl]
    · intro cmd
      unfold Create
      rw [NewCache_of_tls_ok env conf st cfg opts hdec htls,
        connect_of_client_error env opts st e hcl]
      unfold withTLS
      split
      · split
        · split <;> simp
        · simp
      · simp
  · intro client hcl hping
    refine ⟨_, ?_, rfl, rfl, by simp [Err.kind]⟩
    unfold Create
    rw [NewCache_of_tls_ok env conf st cfg opts hdec htls,
      connect_of_ping_error env opts st client e hcl hping]

/-- Witness for C2 (amended): client creation refused, and a client whose
`PING` fails. -/
theorem Create_unreachable_witness :
    (∃ err, (Create envRefused confPlain World.fresh).1 = .error err ∧
        err.kind = some .ErrInternal) ∧
    (∃ err, (Create envOk confPlain worldDown).1 = .error err ∧
        err.kind = some .ErrConnectionCheckFailed) := by
  constructor
  · obtain ⟨err, h1, _, h3, _⟩ :=
      (Create_unreachable envRefused confPlain World.fresh cfgPlain (clientOptions cfgPlain)
        (.ext "dial tcp 127.0.0.1:6379: connect: connection refused") rfl rfl).2.1 rfl
    exact ⟨err, h1, h3⟩
  · obtain ⟨err, h1, _, h3, _⟩ :=
      (Create_unreachable envOk confPlain worldDown cfgPlain (clientOptions cfgPlain)
        (.ext "dial tcp 127.0.0.1:6379: i/o timeout") rfl rfl).2.2 modelClient rfl rfl
    exact ⟨err, h1, h3⟩

/-- C3: for a configuration map whose address list is missing, empty, or holds
an empty string, `NewCache` returns no instance together with the error of
decoding and validation, which is of kind `ErrConfiguration` and not
`ErrConnectionCheckFailed`; no TLS material is loaded, no client is created
and no command is sent, and the state of the store and client is untouched. -/
theorem NewCache_bad_addrs {σ : Type} (env : Env σ) (conf : ConfMap) (st : σ)
    (hbad : conf.lookup "addrs" = none ∨ conf.lookup "addrs" = some (.list []) ∨
      ∃ xs, conf.lookup "addrs" = some (.list xs) ∧ Value.str "" ∈ xs) :
    ∃ err, decodeConfig conf = .error err ∧
      NewCache env conf st = (.error err, st, []) ∧
      err.kind = some .ErrConfiguration ∧ err.kind ≠ some .ErrConnectionCheckFailed := by
  have hinv : ∀ cfg, decodeFields conf = some cfg → validAddrs cfg.Addrs = false := by
    intro cfg hf
    have ha := decodeFields_addrs conf cfg hf
    rcases hbad with h | h | ⟨xs, h, hmem⟩
    · rw [h] at ha
      simp only [decodeAddrs, Option.some.injEq] at ha
      rw [← ha]
      exact validAddrs_nil
    · rw [h] at ha
      simp only [decodeAddrs, asStrings, Option.some.injEq] at ha
      rw [← ha]
      exact validAddrs_nil
    · rw [h] at ha
      simp only [decodeAddrs] at ha
      exact validAddrs_of_mem_empty _ (asStrings_mem_empty xs _ ha hmem)
  obtain ⟨err, herr⟩ := decodeConfig_invalid conf hinv
  have hk := decodeConfig_error_kind conf err herr
  refine ⟨err, herr, NewCache_of_decode_error env conf st err herr, hk, ?_⟩
  rw [hk]
  decide

/-- Witness for C3: an address list that holds an empty string. -/
theorem NewCache_bad_addrs_witness :
    ∃ err, decodeConfig confEmptyAddr = .error err ∧
      NewCache envOk confEmptyAddr World.fresh = (.error err, World.fresh, []) ∧
      err.kind = some .ErrConfiguration ∧ err.kind ≠ some .ErrConnectionCheckFailed :=
  NewCache_bad_addrs envOk confEmptyAddr World.fresh
    (Or.inr (Or.inr ⟨[.str "redis:6379", .str ""], rfl, by simp⟩))

/-- C4: in `NewCache`, a TLS context is built exactly when the decoded
configuration has a TLS section with a non-empty key-store path; when building
it fails with `e`, the result is no instance and an error of kind
`ErrConfiguration` caused by `e` (not `ErrConnectionCheckFailed`), with no
client created and no command sent; when the section is absent or the path is
empty, the client is created with options that carry no TLS configuration and
the additional trust anchor has no influence on the result. -/
theorem NewCache_tls {σ : Type} (env : Env σ) (conf : ConfMap) (st : σ) (cfg : Config)
    (hdec : decodeConfig conf = .ok cfg) :
    ((∃ tls ca, Event.configureTLS tls ca ∈ (NewCache env conf st).2.2) ↔
      ∃ tls, cfg.TLS = some tls ∧ tls.KeyStore.Path ≠ "") ∧
    (∀ tls e, cfg.TLS = some tls → tls.KeyStore.Path ≠ "" →
      env.configureTLS tls cfg.AdditionalCa = .error e →
      ∃ err, NewCache env conf st = (.error err, st, [.configureTLS tls cfg.AdditionalCa]) ∧
        err = .chain .ErrConfiguration "failed configuring tls for redis cache" e ∧
        err.kind = some .ErrConfiguration ∧ err.cause = some e ∧
        err.kind ≠ some .ErrConnectionCheckFailed ∧
        (e.Is .ErrConnectionCheckFailed = false →
          err.Is .ErrConnectionCheckFailed = false) ∧
        (∀ o, Event.newClient o ∉ (NewCache env conf st).2.2) ∧
        (∀ cmd, Event.command cmd ∉ (NewCache env conf st).2.2)) ∧
    ((cfg.TLS = none ∨ ∃ tls, cfg.TLS = some tls ∧ tls.KeyStore.Path = "") →
      (∀ o, Event.newClient o ∈ (NewCache env conf st).2.2 ↔ o = clientOptions cfg) ∧
      (clientOptions cfg).TLSConfig = none ∧
      ∀ conf2 ca, decodeConfig conf2 = .ok { cfg with AdditionalCa := ca } →
        NewCache env conf2 st = NewCache env conf st) := by
  refine ⟨⟨?_, ?_⟩, ?_, ?_⟩
  · rintro ⟨tls, ca, hmem⟩
    cases hT : cfg.TLS with
    | none =>
      rw [NewCache_of_guard_false env conf st cfg hdec (Or.inl hT)] at hmem
      exact absurd hmem (connect_events_no_tls env _ st tls ca)
    | some t =>
      by_cases hp : t.KeyStore.Path = ""
      · rw [NewCache_of_guard_false env conf st cfg hdec (Or.inr ⟨t, hT, hp⟩)] at hmem
        exact absurd hmem (connect_events_no_tls env _ st tls ca)
      · exact ⟨t, rfl, hp⟩
  · rintro ⟨t, hT, hp⟩
    refine ⟨t, cfg.AdditionalCa, ?_⟩
    have hw := withTLS_of_guard_true env cfg (clientOptions cfg) t hT hp
    cases hc : env.configureTLS t cfg.AdditionalCa with
    | error err =>
      rw [hc] at hw
      rw [NewCache_of_tls_error env conf st cfg _ _ hdec hw]
      simp
    | ok tc =>
      rw [hc] at hw
      rw [NewCache_of_tls_ok env conf st cfg _ hdec (by rw [hw]), hw]
      simp
  · intro tls e hT hp hc
    have hw := withTLS_of_guard_true env cfg (clientOptions cfg) tls hT hp
    rw [hc] at hw
    have hN := NewCache_of_tls_error env conf st cfg _ _ hdec hw
    refine ⟨_, hN, rfl, rfl, rfl, by simp [Err.kind], ?_, ?_, ?_⟩
    · intro he
      simp [Err.Is, he]
    · intro o
      rw [hN]
      simp
    · intro cmd
      rw [hN]
      simp
  · intro hg
    have hN := NewCache_of_guard_false env conf st cfg hdec hg
    refine ⟨?_, rfl, ?_⟩
    · intro o
      rw [hN]
      exact connect_events_client env _ st o
    · intro conf2 ca hdec2
      have hg2 : ({ cfg with AdditionalCa := ca } : Config).TLS = none ∨
          ∃ tls, ({ cfg with AdditionalCa := ca } : Config).TLS = some tls ∧
            tls.KeyStore.Path = "" := hg
      rw [hN, NewCache_of_guard_false env conf2 st _ hdec2 hg2]
      rfl

/-- Witness for C4: a key store that cannot be loaded, and a configuration
without TLS section to which an additional trust anchor is added. -/
theorem NewCache_tls_witness :
    (∃ err, NewCache envBadTLS confTLS World.fresh =
        (.error err, World.fresh, [.configureTLS tlsKS "/certs/ca.pem"]) ∧
      err.kind = some .ErrConfiguration) ∧
    NewCache envOk confPlainCa World.fresh = NewCache envOk confPlain World.fresh := by
  constructor
  · obtain ⟨err, h1, _, h3, _⟩ :=
      (NewCache_tls envBadTLS confTLS World.fresh cfgTLS rfl).2.1 tlsKS
        (.ext "open /certs/ks.pem: no such file or directory") rfl (by decide) rfl
    exact ⟨err, h1, h3⟩
  · exact ((NewCache_tls envOk confPlain World.fresh cfgPlain rfl).2.2 (Or.inl rfl)).2.2
      confPlainCa "/certs/ca.pem" rfl

/-! ## Upstream URL creation -/

/-- C10: for a backend without rewriter and an allocated input URL `u`,
`CreateURL` returns a pointer that was not allocated before, to a URL whose
scheme, path and raw query are those of `u`, whose host is the host of the
backend, and whose other components are empty; `u`, every other allocated URL
and the backend are unchanged. -/
theorem CreateURL_no_rewriter {ρ : Type} (Rewrite : ρ → URL → URL) (m : Mem ρ) (value : Nat)
    (u : URL) (hnil : m.backend.URLRewriter = none) (hu : m.urls.get? value = some u) :
    ∃ p m2, CreateURL Rewrite m value = some (p, m2) ∧
      m.urls.get? p = none ∧ p ≠ value ∧
      (∃ r, m2.urls.get? p = some r ∧
        r.Scheme = u.Scheme ∧ r.Host = m.backend.Host ∧ r.Path = u.Path ∧
        r.RawQuery = u.RawQuery ∧ r.User = none ∧ r.Fragment = "" ∧ r.RawFragment = "" ∧
        r.Opaque = "" ∧ r.RawPath = "" ∧ r.OmitHost = false ∧ r.ForceQuery = false) ∧
      m2.urls.get? value = some u ∧
      (∀ q v, m.urls.get? q = some v → m2.urls.get? q = some v) ∧
      m2.backend = m.backend := by
  have hlt : value < m.urls.length := by
    rcases List.get?_eq_some.mp hu with ⟨h, _⟩
    exact h
  have hkeep : ∀ (x : URL) q v, m.urls.get? q = some v → (m.urls ++ [x]).get? q = some v := by
    intro x q v hq
    have hq2 : q < m.urls.length := by
      rcases List.get?_eq_some.mp hq with ⟨h, _⟩
      exact h
    rw [List.get?_eq_getElem?] at hq ⊢
    rw [List.getElem?_append_left hq2]
    exact hq
  refine ⟨m.urls.length,
    { m with urls := m.urls ++
      [{ Scheme := u.Scheme, Opaque := "", User := none, Host := m.backend.Host,
         Path := u.Path, RawPath := "", OmitHost := false, ForceQuery := false,
         RawQuery := u.RawQuery, Fragment := "", RawFragment := "" }] },
    ?_, ?_, ?_, ?_, ?_, ?_, ?_⟩
  · unfold CreateURL
    rw [hu]
    simp only [hnil]
  · exact List.get?_len_le (Nat.le_refl _)
  · exact Nat.ne_of_gt hlt
  · refine Exists.intro ?r (And.intro ?hget ?hrest)
    case hget =>
      rw [List.get?_eq_getElem?]
      exact List.getElem?_concat_length _ _
    case hrest => exact ⟨rfl, rfl, rfl, rfl, rfl, rfl, rfl, rfl, rfl, rfl, rfl⟩
  · exact hkeep _ value u hu
  · intro q v hq
    exact hkeep _ q v hq
  · rfl

/-- Witness for C10: a backend without rewriter and a URL with user
information and fragment. -/
theorem CreateURL_no_rewriter_witness :
    ∃ p m2, CreateURL (fun _ x => x) memPlain 0 = some (p, m2) ∧
      memPlain.urls.get? p = none ∧ p ≠ 0 ∧
      (∃ r, m2.urls.get? p = some r ∧
        r.Scheme = urlFull.Scheme ∧ r.Host = memPlain.backend.Host ∧ r.Path = urlFull.Path ∧
        r.RawQuery = urlFull.RawQuery ∧ r.User = none ∧ r.Fragment = "" ∧
        r.RawFragment = "" ∧ r.Opaque = "" ∧ r.RawPath = "" ∧ r.OmitHost = false ∧
        r.ForceQuery = false) ∧
      m2.urls.get? 0 = some urlFull ∧
      (∀ q v, memPlain.urls.get? q = some v → m2.urls.get? q = some v) ∧
      m2.backend = memPlain.backend :=
  CreateURL_no_rewriter (fun _ x => x) memPlain 0 urlFull rfl rfl

/-! ## Runtime operations over any client -/

/-- C5: `Get` returns the absent indicator whenever the read-through request
or the conversion of its reply to a string fails (client-side error, nil
reply for a key that is not present or has expired, non-string reply), and
the string of the reply otherwise; the result is never an error value, and on
the model store a key with no unexpired entry in the store and no unexpired
local copy yields absent. -/
theorem Get_result {σ : Type} (c : Cache σ) (st : σ) (key : String) :
    (∀ e, (c.c.DoCache st { key := key } Minute).1.ToString = .error e →
      (c.Get st key).1 = .nil) ∧
    (∀ s, (c.c.DoCache st { key := key } Minute).1.ToString = .ok s →
      (c.Get st key).1 = .str s) ∧
    (∀ e, (c.c.DoCache st { key := key } Minute).1.err = some e → (c.Get st key).1 = .nil) ∧
    ((∀ s, (c.c.DoCache st { key := key } Minute).1.val ≠ .str s) →
      (c.Get st key).1 = .nil) ∧
    (∀ s, (c.c.DoCache st { key := key } Minute).1.err = none →
      (c.c.DoCache st { key := key } Minute).1.val = .str s → (c.Get st key).1 = .str s) ∧
    (∀ msg, (c.Get st key).1 ≠ .error msg) ∧
    (∀ w : World, live w.now w.store key = none → live w.now w.localCache key = none →
      (modelCache.Get w key).1 = .nil) := by
  have hE : ∀ e, (c.c.DoCache st { key := key } Minute).1.ToString = .error e →
      (c.Get st key).1 = .nil := by
    intro e h
    simp [Cache.Get, h]
  have hS : ∀ s, (c.c.DoCache st { key := key } Minute).1.ToString = .ok s →
      (c.Get st key).1 = .str s := by
    intro s h
    simp [Cache.Get, h]
  refine ⟨hE, hS, ?_, ?_, ?_, ?_, ?_⟩
  · intro e h
    exact hE e (by simp [RedisResult.ToString, h])
  · intro h
    cases hr : (c.c.DoCache st { key := key } Minute).1.ToString with
    | error e => exact hE e hr
    | ok s =>
      exfalso
      unfold RedisResult.ToString at hr
      cases he : (c.c.DoCache st { key := key } Minute).1.err with
      | some e => rw [he] at hr; cases hr
      | none =>
        rw [he] at hr
        cases hv : (c.c.DoCache st { key := key } Minute).1.val with
        | str t => exact h t hv
        | null => rw [hv] at hr; cases hr
        | int n => rw [hv] at hr; cases hr
        | err m => rw [hv] at hr; cases hr
  · intro s he hv
    exact hS s (by simp [RedisResult.ToString, he, hv, RedisMessage.ToString])
  · intro msg
    unfold Cache.Get
    dsimp only
    split <;> simp
  · intro w hs hl
    have : (modelCache.c.DoCache w { key := key } Minute).1.ToString = .error
        (match w.fault with
          | some e => e
          | none => Nil) := by
      simp only [modelCache, modelClient, World.DoCache, World.read]
      cases hf : w.fault <;> cases hd : w.disableCache <;>
        simp [hs, hl, failed, reply, RedisResult.ToString, RedisMessage.ToString]
    simp [Cache.Get, this]

/-- Witness for C5: a never-set key on a fresh world, and the key of
`worldSet`. -/
theorem Get_result_witness :
    (modelCache.Get World.fresh "missing").1 = .nil ∧
    (modelCache.Get worldSet "k").1 = .str "v" :=
  ⟨(Get_result modelCache World.fresh "missing").2.2.2.2.2.2 World.fresh rfl rfl,
    (Get_result modelCache worldSet "k").2.1 "v" rfl⟩

/-- C9, as stated, fails: a `Get`, a `Set` and a `Delete` whose command fails
each emit one warning record with the error and a message naming the
operation, but the record does not include the key. -/
theorem failure_log_omits_key :
    (modelCache.Get worldDown "session:42").2.2 =
      [{ level := .warn, err := some (.ext "dial tcp 127.0.0.1:6379: i/o timeout"),
         msg := "Failed to fetch value from cache", fields := [] }] ∧
    (modelCache.Set worldDown "session:42" (.str "v") Hour).2 =
      [{ level := .warn, err := some (.ext "dial tcp 127.0.0.1:6379: i/o timeout"),
         msg := "Failed to store value in cache", fields := [] }] ∧
    (modelCache.Delete worldDown "session:42").2 =
      [{ level := .warn, err := some (.ext "dial tcp 127.0.0.1:6379: i/o timeout"),
         msg := "Failed to unlink value from cache", fields := [] }] ∧
    (∀ r ∈ (modelCache.Get worldDown "session:42").2.2,
      r.includesKey "session:42" = false) ∧
    (∀ r ∈ (modelCache.Set worldDown "session:42" (.str "v") Hour).2,
      r.includesKey "session:42" = false) ∧
    (∀ r ∈ (modelCache.Delete worldDown "session:42").2,
      r.includesKey "session:42" = false) := by
  have h1 : (modelCache.Get worldDown "session:42").2.2 =
      [{ level := .warn, err := some (.ext "dial tcp 127.0.0.1:6379: i/o timeout"),
         msg := "Failed to fetch value from cache", fields := [] }] := rfl
  have h2 : (modelCache.Set worldDown "session:42" (.str "v") Hour).2 =
      [{ level := .warn, err := some (.ext "dial tcp 127.0.0.1:6379: i/o timeout"),
         msg := "Failed to store value in cache", fields := [] }] := rfl
  have h3 : (modelCache.Delete worldDown "session:42").2 =
      [{ level := .warn, err := some (.ext "dial tcp 127.0.0.1:6379: i/o timeout"),
         msg := "Failed to unlink value from cache", fields := [] }] := rfl
  refine ⟨h1, h2, h3, ?_, ?_, ?_⟩
  · rw [h1]
    intro r hr
    rw [List.mem_singleton] at hr
    subst hr
    decide
  · rw [h2]
    intro r hr
    rw [List.mem_singleton] at hr
    subst hr
    decide
  · rw [h3]
    intro r hr
    rw [List.mem_singleton] at hr
    subst hr
    decide

/-- C9, amended: whenever the store command issued by `Get`, `Set` or `Delete`
fails, the operation still completes normally (`Get` returns absent, `Set`
and `Delete` return nothing) and emits exactly one warning record that carries
the error and a message naming the operation, with no further context field.
For `Get` a failure is every result that does not convert to a string: a
client-side error, a nil reply (a key that is not present or has expired,
also on a healthy store), an error reply or another non-string reply.  No
record is emitted exactly when the reply of `Get` is a string, or when the
command of `Set` or `Delete` reports no error. -/
theorem runtime_failures_logged {σ : Type} (c : Cache σ) (st : σ) (key : String)
    (value : AnyVal) (ttl : Duration) :
    (∀ e, (c.c.DoCache st { key := key } Minute).1.ToString = .error e →
      (c.Get st key).1 = .nil ∧
      (c.Get st key).2.2 =
        [{ level := .warn, err := some e, msg := "Failed to fetch value from cache",
           fields := [] }]) ∧
    (∀ s, (c.c.DoCache st { key := key } Minute).1.ToString = .ok s →
      (c.Get st key).2.2 = []) ∧
    (∀ e, (c.c.DoCache st { key := key } Minute).1.err = some e →
      (c.Get st key).2.2 =
        [{ level := .warn, err := some e, msg := "Failed to fetch value from cache",
           fields := [] }]) ∧
    ((c.c.DoCache st { key := key } Minute).1.err = none →
      ((c.c.DoCache st { key := key } Minute).1.val = .null →
        (c.Get st key).1 = .nil ∧
        (c.Get st key).2.2 =
          [{ level := .warn, err := some Nil, msg := "Failed to fetch value from cache",
             fields := [] }]) ∧
      (∀ m, (c.c.DoCache st { key := key } Minute).1.val = .err m →
        (c.Get st key).2.2 =
          [{ level := .warn, err := some (.ext m), msg := "Failed to fetch value from cache",
             fields := [] }]) ∧
      (∀ n, (c.c.DoCache st { key := key } Minute).1.val = .int n →
        (c.Get st key).2.2 =
          [{ level := .warn, err := some (.ext "redis message type int64 is not a string"),
             msg := "Failed to fetch value from cache", fields := [] }]) ∧
      (∀ s, (c.c.DoCache st { key := key } Minute).1.val = .str s →
        (c.Get st key).2.2 = [])) ∧
    ((c.Get st key).2.2 = [] ↔
      ∃ s, (c.c.DoCache st { key := key } Minute).1.err = none ∧
        (c.c.DoCache st { key := key } Minute).1.val = .str s) ∧
    (∀ w : World, w.fault = none → live w.now w.store key = none →
      (w.disableCache = true ∨ live w.now w.localCache key = none) →
      (modelCache.Get w key).2.2 =
        [{ level := .warn, err := some Nil, msg := "Failed to fetch value from cache",
           fields := [] }]) ∧
    (∀ e, (c.c.Do st (.set key (Sprintf_s value) ttl)).1.Error = some e →
      (c.Set st key value ttl).2 =
        [{ level := .warn, err := some e, msg := "Failed to store value in cache",
           fields := [] }]) ∧
    ((c.c.Do st (.set key (Sprintf_s value) ttl)).1.Error = none →
      (c.Set st key value ttl).2 = []) ∧
    (∀ e, (c.c.Do st (.unlink key)).1.Error = some e →
      (c.Delete st key).2 =
        [{ level := .warn, err := some e, msg := "Failed to unlink value from cache",
           fields := [] }]) ∧
    ((c.c.Do st (.unlink key)).1.Error = none → (c.Delete st key).2 = []) := by
  have hE : ∀ e, (c.c.DoCache st { key := key } Minute).1.ToString = .error e →
      (c.Get st key).1 = .nil ∧
      (c.Get st key).2.2 =
        [{ level := .warn, err := some e, msg := "Failed to fetch value from cache",
           fields := [] }] := by
    intro e h
    simp [Cache.Get, h]
  have hS : ∀ s, (c.c.DoCache st { key := key } Minute).1.ToString = .ok s →
      (c.Get st key).2.2 = [] := by
    intro s h
    simp [Cache.Get, h]
  refine ⟨hE, hS, ?_, ?_, ?_, ?_, ?_, ?_, ?_, ?_⟩
  · intro e h
    exact (hE e (by simp [RedisResult.ToString, h])).2
  · intro he
    refine ⟨?_, ?_, ?_, ?_⟩
    · intro hv
      exact hE Nil (by simp [RedisResult.ToString, RedisMessage.ToString, he, hv])
    · intro m hv
      exact (hE _ (by simp [RedisResult.ToString, RedisMessage.ToString, he, hv])).2
    · intro n hv
      exact (hE _ (by simp [RedisResult.ToString, RedisMessage.ToString, he, hv])).2
    · intro s hv
      exact hS s (by simp [RedisResult.ToString, RedisMessage.ToString, he, hv])
  · constructor
    · intro hlog
      cases hr : (c.c.DoCache st { key := key } Minute).1.ToString with
      | error e =>
        rw [(hE e hr).2] at hlog
        cases hlog
      | ok s =>
        unfold RedisResult.ToString at hr
        cases he : (c.c.DoCache st { key := key } Minute).1.err with
        | some e => rw [he] at hr; cases hr
        | none =>
          rw [he] at hr
          cases hv : (c.c.DoCache st { key := key } Minute).1.val with
          | str t => exact ⟨t, rfl, rfl⟩
          | null => rw [hv] at hr; cases hr
          | int n => rw [hv] at hr; cases hr
          | err m => rw [hv] at hr; cases hr
    · rintro ⟨s, he, hv⟩
      exact hS s (by simp [RedisResult.ToString, RedisMessage.ToString, he, hv])
  · intro w hf hs hl
    rcases hl with hl | hl
    · simp [Cache.Get, modelCache, modelClient, World.DoCache, World.read, hl, hf, hs, reply,
        RedisResult.ToString, RedisMessage.ToString]
    · cases hd : w.disableCache <;>
        simp [Cache.Get, modelCache, modelClient, World.DoCache, World.read, hl, hf, hs, hd,
          reply, RedisResult.ToString, RedisMessage.ToString]
  · intro e h
    simp [Cache.Set, h]
  · intro h
    simp [Cache.Set, h]
  · intro e h
    simp [Cache.Delete, h]
  · intro h
    simp [Cache.Delete, h]

/-- Witness for C9 (amended): the three operations on a store that is down; on
a healthy store a `Get` of a missing key, which is logged, and a `Get` of a
stored key, a `Set` and a `Delete`, which are not. -/
theorem runtime_failures_logged_witness :
    (modelCache.Get worldDown "k").2.2 =
      [{ level := .warn, err := some (.ext "dial tcp 127.0.0.1:6379: i/o timeout"),
         msg := "Failed to fetch value from cache", fields := [] }] ∧
    (modelCache.Get World.fresh "missing").2.2 =
      [{ level := .warn, err := some Nil, msg := "Failed to fetch value from cache",
         fields := [] }] ∧
    (modelCache.Get worldSet "k").2.2 = [] ∧
    (modelCache.Set worldDown "k" (.str "v") Hour).2 =
      [{ level := .warn, err := some (.ext "dial tcp 127.0.0.1:6379: i/o timeout"),
         msg := "Failed to store value in cache", fields := [] }] ∧
    (modelCache.Set World.fresh "k" (.str "v") Hour).2 = [] ∧
    (modelCache.Delete worldDown "k").2 =
      [{ level := .warn, err := some (.ext "dial tcp 127.0.0.1:6379: i/o timeout"),
         msg := "Failed to unlink value from cache", fields := [] }] ∧
    (modelCache.Delete World.fresh "k").2 = [] :=
  ⟨((runtime_failures_logged modelCache worldDown "k" (.str "v") Hour).1 _ rfl).2,
    (runtime_failures_logged modelCache World.fresh "missing" (.str "v") Hour).2.2.2.2.2.1
      World.fresh rfl rfl (Or.inr rfl),
    ((runtime_failures_logged modelCache worldSet "k" (.str "v") Hour).2.2.2.1 rfl).2.2.2
      "v" rfl,
    (runtime_failures_logged modelCache worldDown "k" (.str "v") Hour).2.2.2.2.2.2.1 _ rfl,
    (runtime_failures_logged modelCache World.fresh "k" (.str "v") Hour).2.2.2.2.2.2.2.1 rfl,
    (runtime_failures_logged modelCache worldDown "k" (.str "v") Hour).2.2.2.2.2.2.2.2.1 _ rfl,
    (runtime_failures_logged modelCache World.fresh "k" (.str "v") Hour).2.2.2.2.2.2.2.2.2 rfl⟩

/-! ## Lemmas on the model store -/

theorem lookup_filter_key (p : String → Bool) (m : List (String × Entry)) (k : String) :
    (m.filter (fun q => p q.1)).lookup k = if p k then m.lookup k else none := by
  induction m with
  | nil => simp
  | cons a rest ih =>
    obtain ⟨a1, a2⟩ := a
    by_cases hk : k = a1
    · subst hk
      by_cases hp : p k
      · simp [List.filter_cons, hp, List.lookup_cons]
      · simp [List.filter_cons, hp, ih]
    · have hb : (k == a1) = false := by simpa using hk
      by_cases hp : p a1
      · simp [List.filter_cons, hp, List.lookup_cons, hb, ih]
      · simp [List.filter_cons, hp, List.lookup_cons, hb, ih]

theorem lookup_remove_same (m : List (String × Entry)) (k : String) :
    (remove m k).lookup k = none := by
  unfold remove
  rw [lookup_filter_key (fun x => x != k) m k]
  simp

theorem lookup_remove_other (m : List (String × Entry)) (k k2 : String) (h : k2 ≠ k) :
    (remove m k).lookup k2 = m.lookup k2 := by
  unfold remove
  rw [lookup_filter_key (fun x => x != k) m k2]
  simp [h]

theorem lookup_put_same (m : List (String × Entry)) (k : String) (e : Entry) :
    (put m k e).lookup k = some e := by
  simp [put, List.lookup_cons]

theorem lookup_put_other (m : List (String × Entry)) (k k2 : String) (e : Entry)
    (h : k2 ≠ k) : (put m k e).lookup k2 = m.lookup k2 := by
  have hb : (k2 == k) = false := by simpa using h
  simp [put, List.lookup_cons, hb, lookup_remove_other m k k2 h]

theorem live_remove_same (now : Int) (m : List (String × Entry)) (k : String) :
    live now (remove m k) k = none := by
  simp [live, lookup_remove_same]

theorem live_put_same (now : Int) (m : List (String × Entry)) (k : String) (e : Entry)
    (h : now < e.expireAt) : live now (put m k e) k = some e := by
  simp [live, lookup_put_same, h]

theorem live_eq_none_iff (now : Int) (m : List (String × Entry)) (k : String) :
    live now m k = none ↔ ∀ e, m.lookup k = some e → e.expireAt ≤ now := by
  unfold live
  cases h : m.lookup k with
  | none => simp
  | some e =>
    by_cases hlt : now < e.expireAt
    · simp [hlt]
    · simp [hlt]
      exact Int.not_lt.mp hlt

theorem live_some_lookup (now : Int) (m : List (String × Entry)) (k : String) (e : Entry)
    (h : live now m k = some e) : m.lookup k = some e := by
  unfold live at h
  cases hl : m.lookup k with
  | none => rw [hl] at h; cases h
  | some e2 =>
    rw [hl] at h
    by_cases hlt : now < e2.expireAt
    · simp [hlt] at h
      rw [h]
    · simp [hlt] at h

theorem Get_model_store_hit (w : World) (k : String) (e : Entry) (hf : w.fault = none)
    (hl : w.disableCache = true ∨ live w.now w.localCache k = none)
    (hs : live w.now w.store k = some e) : (modelCache.Get w k).1 = .str e.value := by
  rcases hl with hl | hl
  · simp [Cache.Get, modelCache, modelClient, World.DoCache, World.read, hl, hf, hs, reply,
      RedisResult.ToString, RedisMessage.ToString]
  · cases hd : w.disableCache <;>
      simp [Cache.Get, modelCache, modelClient, World.DoCache, World.read, hl, hf, hs, hd,
        reply, RedisResult.ToString, RedisMessage.ToString]

theorem Get_model_absent (w : World) (k : String)
    (hl : w.disableCache = true ∨ live w.now w.localCache k = none)
    (hs : live w.now w.store k = none) : (modelCache.Get w k).1 = .nil := by
  rcases hl with hl | hl
  · cases hf : w.fault <;>
      simp [Cache.Get, modelCache, modelClient, World.DoCache, World.read, hl, hf, hs, reply,
        failed, RedisResult.ToString, RedisMessage.ToString]
  · cases hf : w.fault <;> cases hd : w.disableCache <;>
      simp [Cache.Get, modelCache, modelClient, World.DoCache, World.read, hl, hf, hs, hd,
        reply, failed, RedisResult.ToString, RedisMessage.ToString]

theorem Set_model_world (w : World) (k : String) (v : AnyVal) (ttl : Duration)
    (hf : w.fault = none) (httl : 0 < Milliseconds ttl) :
    (modelCache.Set w k v ttl).1 =
      { w with store := put w.store k
                 { value := Sprintf_s v, expireAt := w.now + Milliseconds ttl }
               pending := k :: w.pending } := by
  simp [Cache.Set, modelCache, modelClient, World.Do, hf, httl, reply, RedisResult.Error,
    RedisMessage.Error]

theorem Delete_model_world (w : World) (k : String) (hf : w.fault = none) :
    (modelCache.Delete w k).1 =
      match live w.now w.store k with
      | some e =>
        { w with store := remove w.store k
                 reclaim := e.value :: w.reclaim
                 pending := k :: w.pending }
      | none => { w with store := remove w.store k } := by
  cases hs : live w.now w.store k <;>
    simp [Cache.Delete, modelCache, modelClient, World.Do, hf, hs, reply, RedisResult.Error,
      RedisMessage.Error]

theorem live_deliver_of_pending (w : World) (k : String) (h : k ∈ w.pending) :
    live w.deliver.now w.deliver.localCache k = none := by
  have : w.deliver.localCache.lookup k = none := by
    unfold World.deliver
    simp only
    rw [lookup_filter_key (fun x => !(w.pending.contains x)) w.localCache k]
    simp [h]
  simp [live, this]

theorem Get_model_world (w : World) (k : String) :
    (modelCache.Get w k).2.1 = w ∨
    ∃ e, live w.now w.store k = some e ∧
      (modelCache.Get w k).2.1 =
        { w with localCache := put w.localCache k
                   { value := e.value
                     expireAt := min (w.now + Milliseconds Minute) e.expireAt } } := by
  have hG : (modelCache.Get w k).2.1 = (w.DoCache { key := k } Minute).2 := by
    unfold Cache.Get
    dsimp only
    split <;> rfl
  rw [hG]
  unfold World.DoCache World.read
  cases hd : w.disableCache
  · cases hl : live w.now w.localCache k with
    | some c => left; simp
    | none =>
      cases hf : w.fault with
      | some err => left; simp
      | none =>
        cases hs : live w.now w.store k with
        | none => left; simp
        | some e =>
          right
          refine ⟨e, rfl, ?_⟩
          simp [hf]
  · left
    cases hf : w.fault with
    | some err => simp
    | none => cases hs : live w.now w.store k <;> simp

theorem Op_run_bound (k : String) (T : Int) (op : Op) (w : World)
    (hs : ∀ e, w.store.lookup k = some e → e.expireAt ≤ T)
    (hl : ∀ e, w.localCache.lookup k = some e → e.expireAt ≤ T) :
    (∀ e, (op.run w).store.lookup k = some e → e.expireAt ≤ T) ∧
    (∀ e, (op.run w).localCache.lookup k = some e → e.expireAt ≤ T) := by
  cases op with
  | get k2 =>
    simp only [Op.run]
    rcases Get_model_world w k2 with h | ⟨e, he, h⟩
    · rw [h]
      exact ⟨hs, hl⟩
    · rw [h]
      refine ⟨hs, ?_⟩
      intro c hc
      simp only at hc
      by_cases hk : k = k2
      · subst hk
        rw [lookup_put_same] at hc
        cases hc
        simp only
        have h1 := hs e (live_some_lookup _ _ _ _ he)
        exact le_trans (min_le_right _ _) h1
      · rw [lookup_put_other _ _ _ _ hk] at hc
        exact hl c hc
  | advance dt => exact ⟨hs, hl⟩
  | deliver =>
    refine ⟨hs, ?_⟩
    intro c hc
    simp only [Op.run, World.deliver] at hc
    rw [lookup_filter_key (fun x => !(w.pending.contains x)) w.localCache k] at hc
    by_cases hp : (!(w.pending.contains k)) = true
    · rw [if_pos hp] at hc
      exact hl c hc
    · rw [if_neg hp] at hc
      cases hc
  | reclaim => exact ⟨hs, hl⟩

theorem runOps_bound (k : String) (T : Int) (ops : List Op) (w : World)
    (hs : ∀ e, w.store.lookup k = some e → e.expireAt ≤ T)
    (hl : ∀ e, w.localCache.lookup k = some e → e.expireAt ≤ T) :
    (∀ e, (runOps w ops).store.lookup k = some e → e.expireAt ≤ T) ∧
    (∀ e, (runOps w ops).localCache.lookup k = some e → e.expireAt ≤ T) := by
  induction ops generalizing w with
  | nil => exact ⟨hs, hl⟩
  | cons op rest ih =>
    have h := Op_run_bound k T op w hs hl
    exact ih (op.run w) h.1 h.2

/-! ## Runtime operations over the model store -/

/-- C6, as stated, fails: after `Get("k")` has left a local copy of the old
value, `Set("k", "new", time.Hour)` succeeds and stores the new value, and the
`Get("k")` that follows at once still returns the old value from the local
copy. -/
theorem Set_then_Get_serves_local_copy :
    (modelCache.Get worldSet "k").1 = .str "v" ∧
    worldRead.fault = none ∧
    live worldRead.now worldRead.localCache "k" = some { value := "v", expireAt := 60000 } ∧
    (modelCache.Set worldRead "k" (.str "new") Hour).2 = [] ∧
    live worldRead.now (modelCache.Set worldRead "k" (.str "new") Hour).1.store "k" =
      some { value := "new", expireAt := 3600000 } ∧
    (modelCache.Get (modelCache.Set worldRead "k" (.str "new") Hour).1 "k").1 = .str "v" ∧
    (modelCache.Get (modelCache.Set worldRead "k" (.str "new") Hour).1 "k").1 ≠
      .str (Sprintf_s (.str "new")) := by
  refine ⟨rfl, rfl, rfl, rfl, rfl, rfl, ?_⟩
  decide

/-- C6, amended: over the model store with commands succeeding, `Set(k, v, ttl)`
followed at once by `Get(k)` returns the string that `Set` made of `v` (for a
string `v`, `v` itself), whatever was stored under `k` before, provided no
unexpired local copy of `k` is held when `Get` runs: local caching is
disabled, or no unexpired copy was held before the `Set`, or the client has
processed the invalidation signal of the `Set`. -/
theorem Set_then_Get (w : World) (k : String) (v : AnyVal) (ttl : Duration)
    (hf : w.fault = none) (httl : 0 < Milliseconds ttl) :
    ((w.disableCache = true ∨ live w.now w.localCache k = none) →
      (modelCache.Get (modelCache.Set w k v ttl).1 k).1 = .str (Sprintf_s v)) ∧
    (modelCache.Get (modelCache.Set w k v ttl).1.deliver k).1 = .str (Sprintf_s v) ∧
    (∀ s, v = .str s → Sprintf_s v = s) := by
  have hw := Set_model_world w k v ttl hf httl
  have hlt : w.now < w.now + Milliseconds ttl := by omega
  refine ⟨?_, ?_, ?_⟩
  · intro hl
    rw [hw]
    exact Get_model_store_hit _ k { value := Sprintf_s v, expireAt := w.now + Milliseconds ttl }
      hf hl (live_put_same _ _ _ _ hlt)
  · have hp : k ∈ (modelCache.Set w k v ttl).1.pending := by
      rw [hw]
      exact List.mem_cons_self _ _
    have hl := live_deliver_of_pending _ k hp
    have hs : live (modelCache.Set w k v ttl).1.deliver.now
        (modelCache.Set w k v ttl).1.deliver.store k =
        some { value := Sprintf_s v, expireAt := w.now + Milliseconds ttl } := by
      rw [hw]
      exact live_put_same _ _ _ _ hlt
    have hf2 : (modelCache.Set w k v ttl).1.deliver.fault = none := by
      rw [hw]
      exact hf
    exact Get_model_store_hit _ k _ hf2 (Or.inr hl) hs
  · intro s hs
    rw [hs]
    rfl

/-- Witness for C6 (amended): a `Set` on a fresh world, and a `Set` on a world
that holds a local copy, followed by the processing of the invalidation
signal. -/
theorem Set_then_Get_witness :
    (modelCache.Get (modelCache.Set World.fresh "k" (.str "v") Hour).1 "k").1 = .str "v" ∧
    (modelCache.Get (modelCache.Set worldRead "k" (.str "new") Hour).1.deliver "k").1 =
      .str "new" :=
  ⟨(Set_then_Get World.fresh "k" (.str "v") Hour rfl (by decide)).1 (Or.inr rfl),
    (Set_then_Get worldRead "k" (.str "new") Hour rfl (by decide)).2.1⟩

/-- C7, as stated, fails: after `Get("k")` has left a local copy, `Delete("k")`
succeeds and unlinks the key in the store, with the value still awaiting
reclamation, and the `Get("k")` that follows at once returns the value from
the local copy instead of absent. -/
theorem Delete_then_Get_serves_local_copy :
    (modelCache.Get worldSet "k").1 = .str "v" ∧
    worldRead.fault = none ∧
    (modelCache.Delete worldRead "k").2 = [] ∧
    live worldRead.now (modelCache.Delete worldRead "k").1.store "k" = none ∧
    (modelCache.Delete worldRead "k").1.reclaim = ["v"] ∧
    (modelCache.Get (modelCache.Delete worldRead "k").1 "k").1 = .str "v" ∧
    (modelCache.Get (modelCache.Delete worldRead "k").1 "k").1 ≠ .nil := by
  refine ⟨rfl, rfl, rfl, rfl, rfl, rfl, ?_⟩
  decide

/-- C7, amended: over the model store with commands succeeding, `Delete(k)`
followed by `Get(k)` on the same instance returns absent, also while the
reclamation of the value is still in flight, provided no unexpired local copy
of `k` is held when `Get` runs: local caching is disabled, or no unexpired
copy was held before the `Delete`, or the client has processed the
invalidation signal of the `Delete`. -/
theorem Delete_then_Get (w : World) (k : String) (hf : w.fault = none) :
    ((w.disableCache = true ∨ live w.now w.localCache k = none) →
      (modelCache.Get (modelCache.Delete w k).1 k).1 = .nil) ∧
    (∀ e, live w.now w.store k = some e →
      (modelCache.Get (modelCache.Delete w k).1.deliver k).1 = .nil ∧
      e.value ∈ (modelCache.Delete w k).1.reclaim ∧
      e.value ∈ (modelCache.Delete w k).1.deliver.reclaim) := by
  have hw := Delete_model_world w k hf
  refine ⟨?_, ?_⟩
  · intro hl
    rw [hw]
    cases hs : live w.now w.store k with
    | none => exact Get_model_absent _ k hl (live_remove_same _ _ _)
    | some e => exact Get_model_absent _ k hl (live_remove_same _ _ _)
  · intro e hs
    rw [hs] at hw
    have hp : k ∈ (modelCache.Delete w k).1.pending := by
      rw [hw]
      exact List.mem_cons_self _ _
    have hl := live_deliver_of_pending _ k hp
    have hst : live (modelCache.Delete w k).1.deliver.now
        (modelCache.Delete w k).1.deliver.store k = none := by
      rw [hw]
      exact live_remove_same _ _ _
    refine ⟨Get_model_absent _ k (Or.inr hl) hst, ?_, ?_⟩
    · rw [hw]
      exact List.mem_cons_self _ _
    · rw [hw]
      exact List.mem_cons_self _ _

/-- Witness for C7 (amended): a `Delete` on a world without local copy, and a
`Delete` on a world that holds a local copy, followed by the processing of
the invalidation signal. -/
theorem Delete_then_Get_witness :
    (modelCache.Get (modelCache.Delete worldSet "k").1 "k").1 = .nil ∧
    (modelCache.Get (modelCache.Delete worldRead "k").1.deliver "k").1 = .nil ∧
    "v" ∈ (modelCache.Delete worldRead "k").1.deliver.reclaim :=
  ⟨(Delete_then_Get worldSet "k" rfl).1 (Or.inr rfl),
    ((Delete_then_Get worldRead "k" rfl).2 { value := "v", expireAt := 3600000 } rfl).1,
    ((Delete_then_Get worldRead "k" rfl).2 { value := "v", expireAt := 3600000 } rfl).2.2⟩

/-- C8, as stated, fails: for a value stored with a TTL of one second, the
lifetime that `Get` asks for the local copy is one minute, which is more than
the TTL; and the time after which the copy expires in the model store is one
second for that value but one minute for a value stored for an hour, so it is
not independent of the TTL either. -/
theorem local_lifetime_exceeds_ttl :
    (recCache.Get (recCache.Set [] "k" (.str "v") Second).1 "k").2.1 =
      [.doCmd (.set "k" "v" Second), .doCache { key := "k" } Minute] ∧
    ¬ (Minute ≤ Second) ∧
    ((modelCache.Get (modelCache.Set World.fresh "k" (.str "v") Second).1 "k").2.1.localCache.lookup
      "k").map Entry.expireAt = some 1000 ∧
    ((modelCache.Get (modelCache.Set World.fresh "k" (.str "v") Hour).1 "k").2.1.localCache.lookup
      "k").map Entry.expireAt = some 60000 := by
  refine ⟨rfl, ?_, rfl, rfl⟩
  decide

/-- C8, amended: the lifetime that `Get` asks for the local copy of `k` is the
constant one minute, whatever TTL the value was stored with (so it exceeds any
TTL shorter than a minute); in the model store the copy that `Get` makes
expires no later than the stored entry, and a value set with TTL `T` while no
unexpired local copy of `k` is held is not returned by `Get` once `T` has
elapsed, whatever reads, invalidations and waiting happened in between. -/
theorem local_lifetime (st : List Call) (w : World) (k : String) (v : AnyVal)
    (ttl : Duration) :
    (recCache.Get (recCache.Set st k v ttl).1 k).2.1 =
      st ++ [.doCmd (.set k (Sprintf_s v) ttl), .doCache { key := k } Minute] ∧
    Milliseconds Minute = 60000 ∧
    (ttl < Minute → ¬ (Minute ≤ ttl)) ∧
    (∀ e, w.disableCache = false → w.fault = none → live w.now w.localCache k = none →
      live w.now w.store k = some e →
      ∃ c, (modelCache.Get w k).2.1.localCache.lookup k = some c ∧ c.value = e.value ∧
        c.expireAt = min (w.now + 60000) e.expireAt ∧ c.expireAt ≤ e.expireAt) ∧
    (∀ ops, w.fault = none → 0 < Milliseconds ttl → live w.now w.localCache k = none →
      w.now + Milliseconds ttl ≤ (runOps (modelCache.Set w k v ttl).1 ops).now →
      (modelCache.Get (runOps (modelCache.Set w k v ttl).1 ops) k).1 = .nil) := by
  refine ⟨?_, by decide, fun h => Int.not_le.mpr h, ?_, ?_⟩
  · simp [Cache.Get, Cache.Set, recCache, recorder, RedisResult.Error, RedisMessage.Error,
      RedisResult.ToString, RedisMessage.ToString]
  · intro e hd hf hl hs
    refine ⟨{ value := e.value, expireAt := min (w.now + 60000) e.expireAt }, ?_, rfl, rfl,
      min_le_right _ _⟩
    have hm : Milliseconds Minute = 60000 := by decide
    simp [Cache.Get, modelCache, modelClient, World.DoCache, hd, hf, hl, hs, reply,
      RedisResult.ToString, RedisMessage.ToString, lookup_put_same, hm]
  · intro ops hf httl hl hT
    have hw := Set_model_world w k v ttl hf httl
    have hb := runOps_bound k (w.now + Milliseconds ttl) ops (modelCache.Set w k v ttl).1
      (by
        intro e he
        rw [hw] at he
        simp only [lookup_put_same, Option.some.injEq] at he
        rw [← he])
      (by
        intro e he
        rw [hw] at he
        have h1 := (live_eq_none_iff _ _ _).mp hl e he
        omega)
    apply Get_model_absent
    · right
      rw [live_eq_none_iff]
      intro e he
      exact le_trans (hb.2 e he) hT
    · rw [live_eq_none_iff]
      intro e he
      exact le_trans (hb.1 e he) hT

/-- Witness for C8 (amended): a value stored for one second is read, ten
seconds pass, and the next read finds nothing. -/
theorem local_lifetime_witness :
    (∃ c, (modelCache.Get (modelCache.Set World.fresh "k" (.str "v") Second).1 "k").2.1.localCache.lookup
        "k" = some c ∧ c.expireAt ≤ 1000) ∧
    (modelCache.Get (runOps (modelCache.Set World.fresh "k" (.str "v") Second).1
      [.get "k", .advance 10000, .get "k"]) "k").1 = .nil := by
  constructor
  · obtain ⟨c, h1, _, _, h4⟩ :=
      (local_lifetime [] (modelCache.Set World.fresh "k" (.str "v") Second).1 "k" (.str "v")
        Second).2.2.2.1 { value := "v", expireAt := 1000 } rfl rfl rfl rfl
    exact ⟨c, h1, h4⟩
  · exact (local_lifetime [] World.fresh "k" (.str "v") Second).2.2.2.2
      [.get "k", .advance 10000, .get "k"] rfl (by decide) rfl (by decide)

end Heimdall
